import Mathlib

/-!
Shallow embedding of `libgalois/include/galois/graphs/PropertyFileGraph.h`
(katana property-graph core), together with theorems checking the
specification's claims about it.

The header declares the surface of `galois::graphs::GraphTopology`,
`galois::graphs::PropertyFileGraph` and its `PropertyView`.  The inline
bodies present in the header (`num_nodes`, `num_edges`, the schema /
property accessors, and the `PropertyView` forwarding) are embedded
directly from the source.  The out-of-line operations (`Make`, `Write`,
`Validate`, `AddNodeProperties`, `AddEdgeProperties`,
`RemoveNodeProperty`, `RemoveEdgeProperty`, `SetTopology`) have no body
in the repository; their definitions below are modelled from the spec,
as their doc comments state.

Modelling conventions: `arrow` arrays become `List Nat` wrapped in
`Option` (a `std::shared_ptr` may be null); `arrow::Table` becomes a
row count plus an ordered list of named, typed columns (a chunked
column is one logical column, per the spec); `Result<T>` becomes
`Except ErrorCode T`; the RDG storage layer becomes an association
list from names to serialized graph data; in-place mutation becomes
explicit state passing, a mutator returning its `Result<void>` paired
with the post-call graph.
-/

namespace galois

/-- Error kinds of the result type (spec section 7). -/
inductive ErrorCode
  | notFound
  | invalidArgument
  | invalidUsage
  | ioError
  | validationError
  deriving DecidableEq

/-- `galois::Result<T>`: explicit success-or-failure return. -/
abbrev GResult (α : Type) := Except ErrorCode α

/-- Arrow column value types, abstracted to a small closed set. -/
inductive ArrowType
  | int64
  | float64
  | utf8
  | boolean
  deriving DecidableEq

/-- A cell value held by a property column. -/
inductive Value
  | intV (i : Int)
  | strV (s : String)
  | boolV (b : Bool)
  deriving DecidableEq

/-- One named, typed column of an `arrow::Table` (a chunked array is one
logical column of fixed length, per the spec's data model). -/
structure Column where
  name : String
  ty : ArrowType
  values : List Value
  deriving DecidableEq

/-- An `arrow::Table`: a row count and an ordered list of columns.  A
table with zero columns still records its row count, as arrow does. -/
structure Table where
  num_rows : Nat
  columns : List Column
  deriving DecidableEq

/-- `arrow::Table::schema()`: the ordered (name, type) pairs. -/
def Table.schema (t : Table) : List (String × ArrowType) :=
  t.columns.map (fun c => (c.name, c.ty))

/-- Whether the table has a column with the given name. -/
def Table.hasColumn (t : Table) (n : String) : Bool :=
  t.columns.any (fun c => c.name == n)

/-- `GraphTopology` from the header: CSR adjacency, two nullable arrow
arrays (`std::shared_ptr<arrow::UInt64Array> out_indices`,
`std::shared_ptr<arrow::UInt32Array> out_dests`). -/
structure GraphTopology where
  out_indices : Option (List Nat)
  out_dests : Option (List Nat)
  deriving DecidableEq

/-- `num_nodes() { return out_indices ? out_indices->length() : 0; }` -/
def GraphTopology.num_nodes (t : GraphTopology) : Nat :=
  match t.out_indices with
  | some a => a.length
  | none => 0

/-- `num_edges() { return out_dests ? out_dests->length() : 0; }` -/
def GraphTopology.num_edges (t : GraphTopology) : Nat :=
  match t.out_dests with
  | some a => a.length
  | none => 0

/-- The index array viewed as a sequence (a null pointer reads as the
empty sequence). -/
def GraphTopology.outIndexList (t : GraphTopology) : List Nat :=
  t.out_indices.getD []

/-- The destination array viewed as a sequence. -/
def GraphTopology.outDestList (t : GraphTopology) : List Nat :=
  t.out_dests.getD []

/-- Monotone non-decreasing check for the CSR index array. -/
def monotoneB : List Nat → Bool
  | [] => true
  | [_] => true
  | a :: b :: rest => decide (a ≤ b) && monotoneB (b :: rest)

/-- Modelled from the spec: the CSR invariants a topology must satisfy
(section 3): `out_index` monotone non-decreasing, every `out_dest`
value `< num_nodes()`, and `len(out_dest) == out_index.last_or(0)`. -/
def GraphTopology.validB (t : GraphTopology) : Bool :=
  monotoneB t.outIndexList
    && t.outDestList.all (fun d => decide (d < t.num_nodes))
    && (t.outDestList.length == t.outIndexList.getLastD 0)

/-- `PropertyFileGraph`: one node table, one edge table, one topology,
and an optional storage handle naming the location it was loaded from
(`file_` is null for graphs built purely in memory). -/
structure PropertyFileGraph where
  node_table : Table
  edge_table : Table
  topology : GraphTopology
  file : Option String
  deriving DecidableEq

/-- `node_schema() { return rdg_.node_table->schema(); }` -/
def PropertyFileGraph.node_schema (g : PropertyFileGraph) : List (String × ArrowType) :=
  g.node_table.schema

/-- `edge_schema() { return rdg_.edge_table->schema(); }` -/
def PropertyFileGraph.edge_schema (g : PropertyFileGraph) : List (String × ArrowType) :=
  g.edge_table.schema

/-- `NodeProperty(int i) { return rdg_.node_table->column(i); }`,
with the out-of-range access made explicit as `none`. -/
def PropertyFileGraph.NodeProperty (g : PropertyFileGraph) (i : Int) : Option Column :=
  if 0 ≤ i then g.node_table.columns.get? i.toNat else none

/-- `EdgeProperty(int i) { return rdg_.edge_table->column(i); }` -/
def PropertyFileGraph.EdgeProperty (g : PropertyFileGraph) (i : Int) : Option Column :=
  if 0 ≤ i then g.edge_table.columns.get? i.toNat else none

/-- `NodeProperties() { return rdg_.node_table->columns(); }` -/
def PropertyFileGraph.NodeProperties (g : PropertyFileGraph) : List Column :=
  g.node_table.columns

/-- `EdgeProperties() { return rdg_.edge_table->columns(); }` -/
def PropertyFileGraph.EdgeProperties (g : PropertyFileGraph) : List Column :=
  g.edge_table.columns

/-- Modelled from the spec: `PropertyFileGraph::Validate` has no body
under src (declared as "sanity check the graph after loading"); spec
sections 3 and 4.3: node table row count equals topology node count,
edge table row count equals topology edge count, and the topology's own
CSR invariants hold. -/
def PropertyFileGraph.validB (g : PropertyFileGraph) : Bool :=
  g.topology.validB
    && (g.node_table.num_rows == g.topology.num_nodes)
    && (g.edge_table.num_rows == g.topology.num_edges)

/-- The graph satisfies the validation invariant. -/
abbrev PropertyFileGraph.ValidP (g : PropertyFileGraph) : Prop :=
  g.validB = true

/-- Modelled from the spec: `Validate` as a result-returning check. -/
def PropertyFileGraph.Validate (g : PropertyFileGraph) : GResult Unit :=
  if g.validB then .ok () else .error .validationError

/-- Modelled from the spec: `AddNodeProperties` has no body under src;
spec section 4.4: the supplied table's row count must equal the current
node count and no supplied column name may collide with an existing
node column name; on success the new columns are appended in order, on
failure the graph is unchanged and invalid-argument is reported. -/
def PropertyFileGraph.AddNodeProperties (g : PropertyFileGraph) (t : Table) :
    GResult Unit × PropertyFileGraph :=
  if t.num_rows ≠ g.topology.num_nodes then (.error .invalidArgument, g)
  else if t.columns.any (fun c => g.node_table.hasColumn c.name) then
    (.error .invalidArgument, g)
  else
    (.ok (), { g with node_table := ⟨g.node_table.num_rows, g.node_table.columns ++ t.columns⟩ })

/-- Modelled from the spec: `AddEdgeProperties`, the edge-side mirror of
`AddNodeProperties` (spec section 4.4). -/
def PropertyFileGraph.AddEdgeProperties (g : PropertyFileGraph) (t : Table) :
    GResult Unit × PropertyFileGraph :=
  if t.num_rows ≠ g.topology.num_edges then (.error .invalidArgument, g)
  else if t.columns.any (fun c => g.edge_table.hasColumn c.name) then
    (.error .invalidArgument, g)
  else
    (.ok (), { g with edge_table := ⟨g.edge_table.num_rows, g.edge_table.columns ++ t.columns⟩ })

/-- Modelled from the spec: `RemoveNodeProperty(int i)` has no body
under src; spec section 4.4: a valid index removes exactly that column,
later columns shift down by one; out of range reports invalid-argument
and leaves the table unchanged. -/
def PropertyFileGraph.RemoveNodeProperty (g : PropertyFileGraph) (i : Int) :
    GResult Unit × PropertyFileGraph :=
  if 0 ≤ i ∧ i < (g.node_table.columns.length : Int) then
    (.ok (), { g with node_table := ⟨g.node_table.num_rows, g.node_table.columns.eraseIdx i.toNat⟩ })
  else (.error .invalidArgument, g)

/-- Modelled from the spec: `RemoveEdgeProperty(int i)`, the edge-side
mirror of `RemoveNodeProperty` (spec section 4.4). -/
def PropertyFileGraph.RemoveEdgeProperty (g : PropertyFileGraph) (i : Int) :
    GResult Unit × PropertyFileGraph :=
  if 0 ≤ i ∧ i < (g.edge_table.columns.length : Int) then
    (.ok (), { g with edge_table := ⟨g.edge_table.num_rows, g.edge_table.columns.eraseIdx i.toNat⟩ })
  else (.error .invalidArgument, g)

/-- Modelled from the spec: `SetTopology` has no body under src; spec
sections 4.5 and 7: the supplied topology's CSR invariants must hold
(else a validation error) and its counts must match the current table
row counts (else invalid-usage); on failure the prior topology is
retained, on success the topology reference is replaced. -/
def PropertyFileGraph.SetTopology (g : PropertyFileGraph) (t : GraphTopology) :
    GResult Unit × PropertyFileGraph :=
  if t.validB then
    if t.num_nodes = g.node_table.num_rows ∧ t.num_edges = g.edge_table.num_rows then
      (.ok (), { g with topology := t })
    else (.error .invalidUsage, g)
  else (.error .validationError, g)

/-- The serialized on-storage form of a graph: topology and both
property tables (what `DoWrite` commits through the storage layer). -/
structure RDGData where
  node_table : Table
  edge_table : Table
  topology : GraphTopology
  deriving DecidableEq

/-- The storage layer: named locations holding serialized graph data. -/
abbrev Storage := List (String × RDGData)

/-- What `Write` serializes: current topology and both tables. -/
def PropertyFileGraph.serialize (g : PropertyFileGraph) : RDGData :=
  ⟨g.node_table, g.edge_table, g.topology⟩

/-- Modelled from the spec: `Write(const std::string&)` has no body
under src; spec section 4.6: serialize to a brand-new location named
`rdg_name`, failing with io-error if the location already exists; this
call never overwrites. -/
def PropertyFileGraph.Write (g : PropertyFileGraph) (rdg_name : String) (s : Storage) :
    GResult Unit × Storage :=
  if (s.lookup rdg_name).isSome then (.error .ioError, s)
  else (.ok (), (rdg_name, g.serialize) :: s)

/-- Modelled from the spec: `Write()` (no argument) has no body under
src; spec section 4.6: requires a storage handle (fails invalid-usage,
performing no I/O, without one) and overwrites the location the graph
was loaded from. -/
def PropertyFileGraph.WriteBack (g : PropertyFileGraph) (s : Storage) :
    GResult Unit × Storage :=
  match g.file with
  | none => (.error .invalidUsage, s)
  | some n => (.ok (), (n, g.serialize) :: s)

/-- Modelled from the spec: `Make(const std::string&)` has no body
under src; spec section 4.2 contract 2: open storage at the name,
assemble the graph, run `Validate`, and fail as a whole if any step
fails. -/
def PropertyFileGraph.Make (rdg_name : String) (s : Storage) :
    GResult PropertyFileGraph :=
  match s.lookup rdg_name with
  | none => .error .notFound
  | some d =>
    let g : PropertyFileGraph := ⟨d.node_table, d.edge_table, d.topology, some rdg_name⟩
    match g.Validate with
    | .ok _ => .ok g
    | .error e => .error e

/-- Select the stored columns named by the request list, in request
order; a name matching no stored column or more than one stored column
is an invalid argument. -/
def selectColumns (cols : List Column) : List String → GResult (List Column)
  | [] => .ok []
  | n :: ns =>
    match cols.filter (fun c => c.name == n) with
    | [c] =>
      match selectColumns cols ns with
      | .ok rest => .ok (c :: rest)
      | .error e => .error e
    | _ => .error .invalidArgument

/-- Modelled from the spec: the selective `Make(name, node_properties,
edge_properties)` has no body under src; spec section 4.2 contract 3:
like the full load but materializing only the requested columns, in
request order per axis, failing with invalid-argument on a missing or
ambiguous name; an empty request list yields a zero-column table with
the correct row count. -/
def PropertyFileGraph.MakeSelective (rdg_name : String)
    (node_properties edge_properties : List String) (s : Storage) :
    GResult PropertyFileGraph :=
  match s.lookup rdg_name with
  | none => .error .notFound
  | some d =>
    match selectColumns d.node_table.columns node_properties with
    | .error e => .error e
    | .ok ncols =>
      match selectColumns d.edge_table.columns edge_properties with
      | .error e => .error e
      | .ok ecols =>
        let g : PropertyFileGraph :=
          ⟨⟨d.node_table.num_rows, ncols⟩, ⟨d.edge_table.num_rows, ecols⟩,
            d.topology, some rdg_name⟩
        match g.Validate with
        | .ok _ => .ok g
        | .error e => .error e

/-- `PropertyFileGraph::PropertyView` from the header: a pointer to the
graph plus the five member-function pointers it dispatches through. -/
structure PropertyFileGraph.PropertyView where
  g : PropertyFileGraph
  schema_fn : PropertyFileGraph → List (String × ArrowType)
  property_fn : PropertyFileGraph → Int → Option Column
  properties_fn : PropertyFileGraph → List Column
  add_properties_fn : PropertyFileGraph → Table → GResult Unit × PropertyFileGraph
  remove_property_fn : PropertyFileGraph → Int → GResult Unit × PropertyFileGraph

/-- `schema() { return (g->*schema_fn)(); }` -/
def PropertyFileGraph.PropertyView.schema (v : PropertyFileGraph.PropertyView) :
    List (String × ArrowType) :=
  v.schema_fn v.g

/-- `Property(int i) { return (g->*property_fn)(i); }` -/
def PropertyFileGraph.PropertyView.Property (v : PropertyFileGraph.PropertyView) (i : Int) :
    Option Column :=
  v.property_fn v.g i

/-- `Properties() { return (g->*properties_fn)(); }` -/
def PropertyFileGraph.PropertyView.Properties (v : PropertyFileGraph.PropertyView) :
    List Column :=
  v.properties_fn v.g

/-- `AddProperties(table) { return (g->*add_properties_fn)(table); }` -/
def PropertyFileGraph.PropertyView.AddProperties (v : PropertyFileGraph.PropertyView)
    (t : Table) : GResult Unit × PropertyFileGraph :=
  v.add_properties_fn v.g t

/-- `RemoveProperty(int i) { return (g->*remove_property_fn)(i); }` -/
def PropertyFileGraph.PropertyView.RemoveProperty (v : PropertyFileGraph.PropertyView)
    (i : Int) : GResult Unit × PropertyFileGraph :=
  v.remove_property_fn v.g i

/-- `node_property_view()`: binds the five node-role member functions. -/
def PropertyFileGraph.node_property_view (g : PropertyFileGraph) :
    PropertyFileGraph.PropertyView :=
  ⟨g, PropertyFileGraph.node_schema, PropertyFileGraph.NodeProperty,
    PropertyFileGraph.NodeProperties, PropertyFileGraph.AddNodeProperties,
    PropertyFileGraph.RemoveNodeProperty⟩

/-- `edge_property_view()`: binds the five edge-role member functions. -/
def PropertyFileGraph.edge_property_view (g : PropertyFileGraph) :
    PropertyFileGraph.PropertyView :=
  ⟨g, PropertyFileGraph.edge_schema, PropertyFileGraph.EdgeProperty,
    PropertyFileGraph.EdgeProperties, PropertyFileGraph.AddEdgeProperties,
    PropertyFileGraph.RemoveEdgeProperty⟩

/-- A concrete valid graph used by the witnesses: the spec's section 8
topology scenario with one node property and one edge property. -/
def sampleGraph : PropertyFileGraph :=
  ⟨⟨4, [⟨"p0", .int64, [.intV 0, .intV 1, .intV 2, .intV 3]⟩]⟩,
    ⟨5, [⟨"w", .int64, [.intV 7, .intV 7, .intV 7, .intV 7, .intV 7]⟩]⟩,
    ⟨some [2, 3, 3, 5], some [1, 2, 2, 0, 3]⟩, none⟩

/-- The node table stored under "a" in `sampleStore`. -/
def sampleNodeTable : Table :=
  ⟨2, [⟨"p0", .int64, [.intV 0, .intV 1]⟩, ⟨"p1", .utf8, [.strV "x", .strV "y"]⟩,
    ⟨"p2", .boolean, [.boolV true, .boolV false]⟩, ⟨"p3", .int64, [.intV 5, .intV 6]⟩]⟩

/-- The edge table stored under "a" in `sampleStore`. -/
def sampleEdgeTable : Table :=
  ⟨1, [⟨"e0", .int64, [.intV 9]⟩]⟩

/-- Storage with one location, used by the selective-load witnesses:
four node columns, one edge column, a two-node one-edge topology. -/
def sampleStore : Storage :=
  [("a", ⟨sampleNodeTable, sampleEdgeTable, ⟨some [0, 1], some [1]⟩⟩)]

end galois

namespace galois

/-- Every column list produced by a successful `selectColumns` bears
exactly the requested names, in request order. -/
theorem selectColumns_ok_names (cols : List Column) :
    ∀ (ns : List String) (out : List Column),
      selectColumns cols ns = .ok out → out.map Column.name = ns := by
  intro ns
  induction ns with
  | nil =>
    intro out h
    unfold selectColumns at h
    cases h
    rfl
  | cons n ns ih =>
    intro out h
    unfold selectColumns at h
    cases hf : cols.filter (fun c => c.name == n) with
    | nil => rw [hf] at h; cases h
    | cons c rest =>
      cases rest with
      | nil =>
        rw [hf] at h
        cases hr : selectColumns cols ns with
        | error e => rw [hr] at h; cases h
        | ok r =>
          rw [hr] at h
          cases h
          have hc : c ∈ cols.filter (fun c => c.name == n) := by
            rw [hf]; exact List.mem_cons_self c []
          have := (List.mem_filter.mp hc).2
          have hcn : c.name = n := by simpa using this
          simp [hcn, ih r hr]
      | cons c2 rest2 => rw [hf] at h; cases h

/-- `selectColumns` reports no error kind other than invalid-argument. -/
theorem selectColumns_error_code (cols : List Column) :
    ∀ (ns : List String) (e : ErrorCode),
      selectColumns cols ns = .error e → e = .invalidArgument := by
  intro ns
  induction ns with
  | nil => intro e h; unfold selectColumns at h; cases h
  | cons n ns ih =>
    intro e h
    unfold selectColumns at h
    cases hf : cols.filter (fun c => c.name == n) with
    | nil => rw [hf] at h; cases h; rfl
    | cons c rest =>
      cases rest with
      | nil =>
        rw [hf] at h
        cases hr : selectColumns cols ns with
        | error e2 => rw [hr] at h; cases h; exact ih _ hr
        | ok r => rw [hr] at h; cases h
      | cons c2 rest2 => rw [hf] at h; cases h; rfl

/-- A requested name matching no stored column, or more than one, makes
`selectColumns` fail with invalid-argument. -/
theorem selectColumns_bad_name (cols : List Column) :
    ∀ (ns : List String) (p : String), p ∈ ns →
      (cols.filter (fun c => c.name == p)).length ≠ 1 →
      selectColumns cols ns = .error .invalidArgument := by
  intro ns
  induction ns with
  | nil => intro p hp; cases hp
  | cons n ns ih =>
    intro p hp hbad
    unfold selectColumns
    rcases List.mem_cons.mp hp with heq | hmem
    · subst heq
      cases hf : cols.filter (fun c => c.name == p) with
      | nil => rfl
      | cons c rest =>
        cases rest with
        | nil => rw [hf] at hbad; simp at hbad
        | cons c2 rest2 => rfl
    · cases hf : cols.filter (fun c => c.name == n) with
      | nil => rfl
      | cons c rest =>
        cases rest with
        | nil => rw [ih p hmem hbad]
        | cons c2 rest2 => rfl

/-- C1: for a Property Graph satisfying the validation invariant,
`Write(name)` to a fresh location followed by `Make(name)` succeeds and
yields a graph whose node table (schema, column order, values), edge
table and topology arrays are all identical to the original's. -/
theorem c1_round_trip (g : PropertyFileGraph) (rdg_name : String) (s : Storage)
    (hv : g.validB = true) (hfree : s.lookup rdg_name = none) :
    (g.Write rdg_name s).1 = .ok () ∧
    PropertyFileGraph.Make rdg_name (g.Write rdg_name s).2 =
      .ok ⟨g.node_table, g.edge_table, g.topology, some rdg_name⟩ := by
  unfold PropertyFileGraph.Write
  rw [if_neg (by simp [hfree])]
  refine ⟨rfl, ?_⟩
  have hl : List.lookup rdg_name ((rdg_name, g.serialize) :: s) = some g.serialize := by
    simp [List.lookup]
  unfold PropertyFileGraph.Make
  rw [hl]
  have hv2 : PropertyFileGraph.validB
      ⟨g.node_table, g.edge_table, g.topology, some rdg_name⟩ = true := hv
  simp only [PropertyFileGraph.Validate, PropertyFileGraph.serialize, hv2, if_true]

/-- C1 witness: the round trip evaluated on the concrete sample graph
through an empty storage. -/
theorem c1_round_trip_witness :
    (sampleGraph.Write "g" []).1 = .ok () ∧
    PropertyFileGraph.Make "g" (sampleGraph.Write "g" []).2 =
      .ok ⟨sampleGraph.node_table, sampleGraph.edge_table, sampleGraph.topology, some "g"⟩ :=
  c1_round_trip sampleGraph "g" [] (by decide) rfl

/-- C2: a successful selective `Make` yields tables whose column order
is exactly the request list per axis and whose row counts equal the
entity counts (in particular an empty request list yields a zero-column
table with the correct row count); a requested name matching no stored
column or more than one makes the load fail with invalid-argument. -/
theorem c2_selective_load (rdg_name : String) (nps eps : List String) (s : Storage)
    (g : PropertyFileGraph) (d : RDGData) (p : String) :
    (PropertyFileGraph.MakeSelective rdg_name nps eps s = .ok g →
      g.node_table.columns.map Column.name = nps ∧
      g.edge_table.columns.map Column.name = eps ∧
      g.node_table.num_rows = g.topology.num_nodes ∧
      g.edge_table.num_rows = g.topology.num_edges) ∧
    (PropertyFileGraph.MakeSelective rdg_name [] [] s = .ok g →
      g.node_table.columns = [] ∧ g.edge_table.columns = [] ∧
      g.node_table.num_rows = g.topology.num_nodes ∧
      g.edge_table.num_rows = g.topology.num_edges) ∧
    (s.lookup rdg_name = some d → p ∈ nps →
      (d.node_table.columns.filter (fun c => c.name == p)).length ≠ 1 →
      PropertyFileGraph.MakeSelective rdg_name nps eps s = .error .invalidArgument) ∧
    (s.lookup rdg_name = some d → p ∈ eps →
      (d.edge_table.columns.filter (fun c => c.name == p)).length ≠ 1 →
      PropertyFileGraph.MakeSelective rdg_name nps eps s = .error .invalidArgument) := by
  have main : ∀ (nps2 eps2 : List String),
      PropertyFileGraph.MakeSelective rdg_name nps2 eps2 s = .ok g →
      g.node_table.columns.map Column.name = nps2 ∧
      g.edge_table.columns.map Column.name = eps2 ∧
      g.node_table.num_rows = g.topology.num_nodes ∧
      g.edge_table.num_rows = g.topology.num_edges := by
    intro nps2 eps2 h
    unfold PropertyFileGraph.MakeSelective at h
    cases hl : s.lookup rdg_name with
    | none => rw [hl] at h; cases h
    | some d2 =>
      rw [hl] at h
      simp only [] at h
      cases hn : selectColumns d2.node_table.columns nps2 with
      | error e => rw [hn] at h; cases h
      | ok ncols =>
        rw [hn] at h
        simp only [] at h
        cases he : selectColumns d2.edge_table.columns eps2 with
        | error e => rw [he] at h; cases h
        | ok ecols =>
          rw [he] at h
          simp only [PropertyFileGraph.Validate] at h
          by_cases hv : PropertyFileGraph.validB
              ⟨⟨d2.node_table.num_rows, ncols⟩, ⟨d2.edge_table.num_rows, ecols⟩,
                d2.topology, some rdg_name⟩ = true
          · rw [hv] at h
            simp only [if_true] at h
            cases h
            simp only [PropertyFileGraph.validB, Bool.and_eq_true, beq_iff_eq] at hv
            exact ⟨selectColumns_ok_names _ _ _ hn, selectColumns_ok_names _ _ _ he,
              hv.1.2, hv.2⟩
          · rw [Bool.not_eq_true] at hv
            rw [hv] at h
            simp only [Bool.false_eq_true, if_false] at h
            cases h
  refine ⟨main nps eps, ?_, ?_, ?_⟩
  · intro h
    obtain ⟨h1, h2, h3, h4⟩ := main [] [] h
    exact ⟨List.map_eq_nil_iff.mp h1, List.map_eq_nil_iff.mp h2, h3, h4⟩
  · intro hl hp hbad
    unfold PropertyFileGraph.MakeSelective
    rw [hl]
    simp only []
    rw [selectColumns_bad_name _ _ _ hp hbad]
  · intro hl hp hbad
    unfold PropertyFileGraph.MakeSelective
    rw [hl]
    simp only []
    cases hn : selectColumns d.node_table.columns nps with
    | error e =>
      have he2 := selectColumns_error_code _ _ _ hn
      subst he2
      rfl
    | ok ncols =>
      simp only []
      rw [selectColumns_bad_name _ _ _ hp hbad]

/-- C2 witness: loading node request list [p1, p3] from the stored
schema [p0, p1, p2, p3] yields exactly those two columns in that order
with the stored row counts, and requesting the absent name "zz" fails
with invalid-argument. -/
theorem c2_selective_load_witness :
    ((⟨⟨2, [⟨"p1", .utf8, [.strV "x", .strV "y"]⟩, ⟨"p3", .int64, [.intV 5, .intV 6]⟩]⟩,
        ⟨1, []⟩, ⟨some [0, 1], some [1]⟩, some "a"⟩ : PropertyFileGraph).node_table.columns.map
        Column.name = ["p1", "p3"] ∧
      (⟨⟨2, [⟨"p1", .utf8, [.strV "x", .strV "y"]⟩, ⟨"p3", .int64, [.intV 5, .intV 6]⟩]⟩,
        ⟨1, []⟩, ⟨some [0, 1], some [1]⟩, some "a"⟩ : PropertyFileGraph).edge_table.columns.map
        Column.name = [] ∧
      (⟨⟨2, [⟨"p1", .utf8, [.strV "x", .strV "y"]⟩, ⟨"p3", .int64, [.intV 5, .intV 6]⟩]⟩,
        ⟨1, []⟩, ⟨some [0, 1], some [1]⟩, some "a"⟩ : PropertyFileGraph).node_table.num_rows =
        (⟨⟨2, [⟨"p1", .utf8, [.strV "x", .strV "y"]⟩, ⟨"p3", .int64, [.intV 5, .intV 6]⟩]⟩,
        ⟨1, []⟩, ⟨some [0, 1], some [1]⟩, some "a"⟩ : PropertyFileGraph).topology.num_nodes ∧
      (⟨⟨2, [⟨"p1", .utf8, [.strV "x", .strV "y"]⟩, ⟨"p3", .int64, [.intV 5, .intV 6]⟩]⟩,
        ⟨1, []⟩, ⟨some [0, 1], some [1]⟩, some "a"⟩ : PropertyFileGraph).edge_table.num_rows =
        (⟨⟨2, [⟨"p1", .utf8, [.strV "x", .strV "y"]⟩, ⟨"p3", .int64, [.intV 5, .intV 6]⟩]⟩,
        ⟨1, []⟩, ⟨some [0, 1], some [1]⟩, some "a"⟩ : PropertyFileGraph).topology.num_edges) ∧
    PropertyFileGraph.MakeSelective "a" ["zz"] [] sampleStore = .error .invalidArgument :=
  ⟨(c2_selective_load "a" ["p1", "p3"] [] sampleStore _
      ⟨⟨0, []⟩, ⟨0, []⟩, ⟨none, none⟩⟩ "x").1 rfl,
   (c2_selective_load "a" ["zz"] [] sampleStore sampleGraph
      ⟨sampleNodeTable, sampleEdgeTable, ⟨some [0, 1], some [1]⟩⟩ "zz").2.2.1
      rfl (List.mem_singleton.mpr rfl) (by decide)⟩

/-- C3: per role, `AddProperties` fails with invalid-argument leaving
the graph unchanged when the supplied table's row count differs from
the entity count or a supplied column name collides with an existing
one, and otherwise appends the new columns after the existing ones in
input order. -/
theorem c3_add_properties (g : PropertyFileGraph) (t : Table) :
    (t.num_rows ≠ g.topology.num_nodes → g.AddNodeProperties t = (.error .invalidArgument, g)) ∧
    ((∃ c ∈ t.columns, g.node_table.hasColumn c.name = true) →
      g.AddNodeProperties t = (.error .invalidArgument, g)) ∧
    (t.num_rows = g.topology.num_nodes →
      (∀ c ∈ t.columns, g.node_table.hasColumn c.name = false) →
      g.AddNodeProperties t =
        (.ok (), { g with node_table := ⟨g.node_table.num_rows, g.node_table.columns ++ t.columns⟩ })) ∧
    (t.num_rows ≠ g.topology.num_edges → g.AddEdgeProperties t = (.error .invalidArgument, g)) ∧
    ((∃ c ∈ t.columns, g.edge_table.hasColumn c.name = true) →
      g.AddEdgeProperties t = (.error .invalidArgument, g)) ∧
    (t.num_rows = g.topology.num_edges →
      (∀ c ∈ t.columns, g.edge_table.hasColumn c.name = false) →
      g.AddEdgeProperties t =
        (.ok (), { g with edge_table := ⟨g.edge_table.num_rows, g.edge_table.columns ++ t.columns⟩ })) := by
  refine ⟨?_, ?_, ?_, ?_, ?_, ?_⟩
  · intro h1
    unfold PropertyFileGraph.AddNodeProperties
    rw [if_pos h1]
  · intro h
    unfold PropertyFileGraph.AddNodeProperties
    by_cases h1 : t.num_rows ≠ g.topology.num_nodes
    · rw [if_pos h1]
    · have hany : t.columns.any (fun c => g.node_table.hasColumn c.name) = true := by
        simp only [List.any_eq_true]
        obtain ⟨c, hc, hh⟩ := h
        exact ⟨c, hc, hh⟩
      rw [if_neg h1, if_pos hany]
  · intro h1 h2
    have hany : t.columns.any (fun c => g.node_table.hasColumn c.name) = false := by
      simp only [List.any_eq_false]
      intro c hc
      simp [h2 c hc]
    unfold PropertyFileGraph.AddNodeProperties
    rw [if_neg (not_not_intro h1), if_neg (by simp [hany])]
  · intro h1
    unfold PropertyFileGraph.AddEdgeProperties
    rw [if_pos h1]
  · intro h
    unfold PropertyFileGraph.AddEdgeProperties
    by_cases h1 : t.num_rows ≠ g.topology.num_edges
    · rw [if_pos h1]
    · have hany : t.columns.any (fun c => g.edge_table.hasColumn c.name) = true := by
        simp only [List.any_eq_true]
        obtain ⟨c, hc, hh⟩ := h
        exact ⟨c, hc, hh⟩
      rw [if_neg h1, if_pos hany]
  · intro h1 h2
    have hany : t.columns.any (fun c => g.edge_table.hasColumn c.name) = false := by
      simp only [List.any_eq_false]
      intro c hc
      simp [h2 c hc]
    unfold PropertyFileGraph.AddEdgeProperties
    rw [if_neg (not_not_intro h1), if_neg (by simp [hany])]

/-- C3 witness: on the sample graph, adding a fresh 4-row column
succeeds by appending it, and adding a 3-row table is rejected with
invalid-argument leaving the graph unchanged. -/
theorem c3_add_properties_witness :
    sampleGraph.AddNodeProperties ⟨4, [⟨"q", .int64, []⟩]⟩ =
      (.ok (), { sampleGraph with node_table :=
        ⟨sampleGraph.node_table.num_rows, sampleGraph.node_table.columns ++ [⟨"q", .int64, []⟩]⟩ }) ∧
    sampleGraph.AddNodeProperties ⟨3, []⟩ = (.error .invalidArgument, sampleGraph) :=
  ⟨(c3_add_properties sampleGraph ⟨4, [⟨"q", .int64, []⟩]⟩).2.2.1 rfl (by decide),
   (c3_add_properties sampleGraph ⟨3, []⟩).1 (by decide)⟩

end galois

namespace galois

/-- C4 counterexample: the claim as stated quantifies over every
Topology value, validated or not; for the topology with
`out_indices = [5]` and a null `out_dests`, `num_edges()` is 0 while
`out_index.last_or(0)` is 5. -/
theorem c4_counterexample :
    ¬ (GraphTopology.num_edges ⟨some [5], none⟩ =
        (GraphTopology.outIndexList ⟨some [5], none⟩).getLastD 0 ∧
       GraphTopology.num_nodes ⟨some [5], none⟩ =
        (GraphTopology.outIndexList ⟨some [5], none⟩).length) := by
  decide

/-- C4 amended: for every Topology, `num_nodes()` is the length of the
index array and `num_edges()` is the length of the destination array;
`num_edges() = out_index.last_or(0)` holds for every Topology
satisfying the CSR validity invariant (those the operations accept),
so the two derivations of `num_edges` agree there. -/
theorem c4_topology_counts (t : GraphTopology) :
    t.num_nodes = t.outIndexList.length ∧
    t.num_edges = t.outDestList.length ∧
    (t.validB = true → t.num_edges = t.outIndexList.getLastD 0) := by
  have hn : t.num_nodes = t.outIndexList.length := by
    cases t with
    | mk i d => cases i <;> rfl
  have he : t.num_edges = t.outDestList.length := by
    cases t with
    | mk i d => cases d <;> rfl
  refine ⟨hn, he, ?_⟩
  intro hv
  unfold GraphTopology.validB at hv
  simp only [Bool.and_eq_true, beq_iff_eq] at hv
  rw [he]
  exact hv.2

/-- C4 witness: the spec's concrete scenario topology passes validation
and its two `num_edges` derivations agree. -/
theorem c4_topology_counts_witness :
    GraphTopology.validB ⟨some [2, 3, 3, 5], some [1, 2, 2, 0, 3]⟩ = true ∧
    GraphTopology.num_edges ⟨some [2, 3, 3, 5], some [1, 2, 2, 0, 3]⟩ =
      (GraphTopology.outIndexList ⟨some [2, 3, 3, 5], some [1, 2, 2, 0, 3]⟩).getLastD 0 :=
  ⟨by decide, (c4_topology_counts ⟨some [2, 3, 3, 5], some [1, 2, 2, 0, 3]⟩).2.2 (by decide)⟩

/-- C5: every graph returned by a successful load (full or selective)
satisfies the validation invariant (so a Validate failure on load
yields no graph), and every mutation starting from a valid graph leaves
a valid graph, a successful `SetTopology` unconditionally so. -/
theorem c5_validation_invariant (rdg_name : String) (nps eps : List String) (s : Storage)
    (g g0 : PropertyFileGraph) (t : Table) (i : Int) (topo : GraphTopology) :
    (PropertyFileGraph.Make rdg_name s = .ok g → g.ValidP) ∧
    (PropertyFileGraph.MakeSelective rdg_name nps eps s = .ok g → g.ValidP) ∧
    (g0.ValidP → (g0.AddNodeProperties t).2.ValidP) ∧
    (g0.ValidP → (g0.AddEdgeProperties t).2.ValidP) ∧
    (g0.ValidP → (g0.RemoveNodeProperty i).2.ValidP) ∧
    (g0.ValidP → (g0.RemoveEdgeProperty i).2.ValidP) ∧
    ((g0.SetTopology topo).1 = .ok () → (g0.SetTopology topo).2.ValidP) ∧
    (g0.ValidP → (g0.SetTopology topo).2.ValidP) := by
  have hset : (g0.SetTopology topo).1 = .ok () → (g0.SetTopology topo).2.ValidP := by
    intro h
    unfold PropertyFileGraph.SetTopology at *
    by_cases hv : topo.validB = true
    · rw [hv] at h ⊢
      simp only [if_true] at h ⊢
      by_cases hc : topo.num_nodes = g0.node_table.num_rows ∧
          topo.num_edges = g0.edge_table.num_rows
      · rw [if_pos hc] at h ⊢
        simp only [PropertyFileGraph.ValidP, PropertyFileGraph.validB, Bool.and_eq_true,
          beq_iff_eq]
        exact ⟨⟨hv, hc.1.symm⟩, hc.2.symm⟩
      · rw [if_neg hc] at h
        cases h
    · rw [Bool.not_eq_true] at hv
      rw [hv] at h
      simp only [Bool.false_eq_true, if_false] at h
      cases h
  refine ⟨?_, ?_, ?_, ?_, ?_, ?_, hset, ?_⟩
  · intro h
    unfold PropertyFileGraph.Make at h
    cases hl : s.lookup rdg_name with
    | none => rw [hl] at h; cases h
    | some d =>
      rw [hl] at h
      simp only [PropertyFileGraph.Validate] at h
      by_cases hv : PropertyFileGraph.validB
          ⟨d.node_table, d.edge_table, d.topology, some rdg_name⟩ = true
      · rw [hv] at h
        simp only [if_true] at h
        cases h
        exact hv
      · rw [Bool.not_eq_true] at hv
        rw [hv] at h
        simp only [Bool.false_eq_true, if_false] at h
        cases h
  · intro h
    unfold PropertyFileGraph.MakeSelective at h
    cases hl : s.lookup rdg_name with
    | none => rw [hl] at h; cases h
    | some d =>
      rw [hl] at h
      simp only [] at h
      cases hn : selectColumns d.node_table.columns nps with
      | error e => rw [hn] at h; cases h
      | ok ncols =>
        rw [hn] at h
        simp only [] at h
        cases he : selectColumns d.edge_table.columns eps with
        | error e => rw [he] at h; cases h
        | ok ecols =>
          rw [he] at h
          simp only [PropertyFileGraph.Validate] at h
          by_cases hv : PropertyFileGraph.validB
              ⟨⟨d.node_table.num_rows, ncols⟩, ⟨d.edge_table.num_rows, ecols⟩,
                d.topology, some rdg_name⟩ = true
          · rw [hv] at h
            simp only [if_true] at h
            cases h
            exact hv
          · rw [Bool.not_eq_true] at hv
            rw [hv] at h
            simp only [Bool.false_eq_true, if_false] at h
            cases h
  · intro h
    unfold PropertyFileGraph.AddNodeProperties
    by_cases h1 : t.num_rows ≠ g0.topology.num_nodes
    · rw [if_pos h1]; exact h
    · rw [if_neg h1]
      by_cases h2 : (t.columns.any fun c => g0.node_table.hasColumn c.name) = true
      · rw [if_pos h2]; exact h
      · rw [if_neg h2]; exact h
  · intro h
    unfold PropertyFileGraph.AddEdgeProperties
    by_cases h1 : t.num_rows ≠ g0.topology.num_edges
    · rw [if_pos h1]; exact h
    · rw [if_neg h1]
      by_cases h2 : (t.columns.any fun c => g0.edge_table.hasColumn c.name) = true
      · rw [if_pos h2]; exact h
      · rw [if_neg h2]; exact h
  · intro h
    unfold PropertyFileGraph.RemoveNodeProperty
    by_cases h1 : 0 ≤ i ∧ i < (g0.node_table.columns.length : Int)
    · rw [if_pos h1]; exact h
    · rw [if_neg h1]; exact h
  · intro h
    unfold PropertyFileGraph.RemoveEdgeProperty
    by_cases h1 : 0 ≤ i ∧ i < (g0.edge_table.columns.length : Int)
    · rw [if_pos h1]; exact h
    · rw [if_neg h1]; exact h
  · intro h
    unfold PropertyFileGraph.SetTopology
    by_cases hv : topo.validB = true
    · rw [hv]
      simp only [if_true]
      by_cases hc : topo.num_nodes = g0.node_table.num_rows ∧
          topo.num_edges = g0.edge_table.num_rows
      · rw [if_pos hc]
        simp only [PropertyFileGraph.ValidP, PropertyFileGraph.validB, Bool.and_eq_true,
          beq_iff_eq]
        exact ⟨⟨hv, hc.1.symm⟩, hc.2.symm⟩
      · rw [if_neg hc]; exact h
    · rw [Bool.not_eq_true] at hv
      rw [hv]
      simp only [Bool.false_eq_true, if_false]
      exact h

/-- C5 witness: the graph loaded from the serialized sample graph is
valid, and so is the sample graph after a successful property add. -/
theorem c5_validation_invariant_witness :
    PropertyFileGraph.ValidP
      ⟨sampleGraph.node_table, sampleGraph.edge_table, sampleGraph.topology, some "g"⟩ ∧
    PropertyFileGraph.ValidP (sampleGraph.AddNodeProperties ⟨4, [⟨"q", .int64, []⟩]⟩).2 :=
  ⟨(c5_validation_invariant "g" [] [] [("g", sampleGraph.serialize)] _ sampleGraph
      ⟨0, []⟩ 0 ⟨none, none⟩).1 rfl,
   (c5_validation_invariant "g" [] [] [] sampleGraph sampleGraph
      ⟨4, [⟨"q", .int64, []⟩]⟩ 0 ⟨none, none⟩).2.2.1 (by decide)⟩

end galois

namespace galois

/-- C6: per role, `RemoveProperty` with an index in range removes
exactly that column, the later columns shifting down by one, and with
an index out of range fails with invalid-argument leaving the graph
unchanged. -/
theorem c6_remove_property (g : PropertyFileGraph) (i : Int) :
    (0 ≤ i → i < (g.node_table.columns.length : Int) →
      g.RemoveNodeProperty i =
        (.ok (), { g with node_table := ⟨g.node_table.num_rows,
          g.node_table.columns.take i.toNat ++ g.node_table.columns.drop (i.toNat + 1)⟩ })) ∧
    (¬ (0 ≤ i ∧ i < (g.node_table.columns.length : Int)) →
      g.RemoveNodeProperty i = (.error .invalidArgument, g)) ∧
    (0 ≤ i → i < (g.edge_table.columns.length : Int) →
      g.RemoveEdgeProperty i =
        (.ok (), { g with edge_table := ⟨g.edge_table.num_rows,
          g.edge_table.columns.take i.toNat ++ g.edge_table.columns.drop (i.toNat + 1)⟩ })) ∧
    (¬ (0 ≤ i ∧ i < (g.edge_table.columns.length : Int)) →
      g.RemoveEdgeProperty i = (.error .invalidArgument, g)) := by
  refine ⟨?_, ?_, ?_, ?_⟩
  · intro h1 h2
    unfold PropertyFileGraph.RemoveNodeProperty
    rw [if_pos ⟨h1, h2⟩, List.eraseIdx_eq_take_drop_succ]
  · intro h
    unfold PropertyFileGraph.RemoveNodeProperty
    rw [if_neg h]
  · intro h1 h2
    unfold PropertyFileGraph.RemoveEdgeProperty
    rw [if_pos ⟨h1, h2⟩, List.eraseIdx_eq_take_drop_succ]
  · intro h
    unfold PropertyFileGraph.RemoveEdgeProperty
    rw [if_neg h]

/-- C6 witness: on a two-column node table, removing index 0 shifts the
second column into its place, and index 5 is rejected with
invalid-argument leaving the graph unchanged. -/
theorem c6_remove_property_witness :
    PropertyFileGraph.RemoveNodeProperty
        ⟨⟨2, [⟨"a", .int64, []⟩, ⟨"b", .int64, []⟩]⟩, ⟨0, []⟩, ⟨some [0, 0], some []⟩, none⟩ 0 =
      (.ok (), ⟨⟨2, [⟨"b", .int64, []⟩]⟩, ⟨0, []⟩, ⟨some [0, 0], some []⟩, none⟩) ∧
    PropertyFileGraph.RemoveNodeProperty
        ⟨⟨2, [⟨"a", .int64, []⟩, ⟨"b", .int64, []⟩]⟩, ⟨0, []⟩, ⟨some [0, 0], some []⟩, none⟩ 5 =
      (.error .invalidArgument,
        ⟨⟨2, [⟨"a", .int64, []⟩, ⟨"b", .int64, []⟩]⟩, ⟨0, []⟩, ⟨some [0, 0], some []⟩, none⟩) :=
  ⟨(c6_remove_property _ 0).1 (by decide) (by decide),
   (c6_remove_property _ 5).2.1 (by decide)⟩

/-- C7: `SetTopology` with a topology failing its CSR invariants, or
whose counts do not match the current table row counts, fails and
retains the prior graph (topology included) unchanged; on success the
topology is replaced by the supplied one. -/
theorem c7_set_topology (g : PropertyFileGraph) (t : GraphTopology) :
    (t.validB = false → g.SetTopology t = (.error .validationError, g)) ∧
    (t.validB = true →
      ¬ (t.num_nodes = g.node_table.num_rows ∧ t.num_edges = g.edge_table.num_rows) →
      g.SetTopology t = (.error .invalidUsage, g)) ∧
    (t.validB = true → t.num_nodes = g.node_table.num_rows →
      t.num_edges = g.edge_table.num_rows →
      g.SetTopology t = (.ok (), { g with topology := t })) := by
  refine ⟨?_, ?_, ?_⟩
  · intro h
    unfold PropertyFileGraph.SetTopology
    rw [h]
    rfl
  · intro h1 h2
    unfold PropertyFileGraph.SetTopology
    rw [h1]
    simp only [if_true]
    rw [if_neg h2]
  · intro h1 h2 h3
    unfold PropertyFileGraph.SetTopology
    rw [h1]
    simp only [if_true]
    rw [if_pos ⟨h2, h3⟩]

/-- C7 witness: replacing the sample graph's topology by an equal valid
one succeeds, and a topology whose `out_dest` length differs from
`out_index.last()` is rejected with the prior graph retained. -/
theorem c7_set_topology_witness :
    sampleGraph.SetTopology ⟨some [2, 3, 3, 5], some [1, 2, 2, 0, 3]⟩ =
      (.ok (), { sampleGraph with topology := ⟨some [2, 3, 3, 5], some [1, 2, 2, 0, 3]⟩ }) ∧
    sampleGraph.SetTopology ⟨some [2], some []⟩ = (.error .validationError, sampleGraph) :=
  ⟨(c7_set_topology sampleGraph ⟨some [2, 3, 3, 5], some [1, 2, 2, 0, 3]⟩).2.2
      (by decide) (by decide) (by decide),
   (c7_set_topology sampleGraph ⟨some [2], some []⟩).1 (by decide)⟩

/-- C8: `Write(name)` fails with io-error leaving storage untouched
when the location exists, and writes a fresh location without touching
any other when it does not; `Write()` fails with invalid-usage and
performs no I/O when the graph holds no storage handle, and otherwise
overwrites the location the graph was loaded from. -/
theorem c8_write_contract (g : PropertyFileGraph) (rdg_name m n : String) (s : Storage) :
    ((s.lookup rdg_name).isSome = true → g.Write rdg_name s = (.error .ioError, s)) ∧
    (s.lookup rdg_name = none →
      (g.Write rdg_name s).1 = .ok () ∧
      (g.Write rdg_name s).2.lookup rdg_name = some g.serialize ∧
      (m ≠ rdg_name → (g.Write rdg_name s).2.lookup m = s.lookup m)) ∧
    (g.file = none → g.WriteBack s = (.error .invalidUsage, s)) ∧
    (g.file = some n →
      (g.WriteBack s).1 = .ok () ∧ (g.WriteBack s).2.lookup n = some g.serialize) := by
  refine ⟨?_, ?_, ?_, ?_⟩
  · intro h
    unfold PropertyFileGraph.Write
    rw [if_pos h]
  · intro h
    unfold PropertyFileGraph.Write
    rw [if_neg (by simp [h])]
    refine ⟨rfl, by simp [List.lookup], ?_⟩
    intro hm
    have hb : (m == rdg_name) = false := by simp [hm]
    simp [List.lookup, hb]
  · intro h
    unfold PropertyFileGraph.WriteBack
    rw [h]
  · intro h
    unfold PropertyFileGraph.WriteBack
    rw [h]
    exact ⟨rfl, by simp [List.lookup]⟩

/-- C8 witness: writing the sample graph to a fresh name in empty
storage succeeds and stores its serialization, and `Write()` on the
sample graph, which holds no storage handle, reports invalid-usage with
storage untouched. -/
theorem c8_write_contract_witness :
    ((sampleGraph.Write "g" []).1 = .ok () ∧
      (sampleGraph.Write "g" []).2.lookup "g" = some sampleGraph.serialize ∧
      ("h" ≠ "g" → (sampleGraph.Write "g" []).2.lookup "h" = List.lookup "h" [])) ∧
    sampleGraph.WriteBack [] = (.error .invalidUsage, []) :=
  ⟨(c8_write_contract sampleGraph "g" "h" "n" []).2.1 rfl,
   (c8_write_contract sampleGraph "g" "h" "n" []).2.2.1 rfl⟩

/-- C9: each of the five operations of the node-role view returns
exactly what the corresponding node-specific operation returns (and,
for the mutators, the same post-call graph), and likewise for the
edge-role view; the views forward verbatim with no validation of their
own. -/
theorem c9_property_view_forwards (g : PropertyFileGraph) (i : Int) (t : Table) :
    g.node_property_view.schema = g.node_schema ∧
    g.node_property_view.Property i = g.NodeProperty i ∧
    g.node_property_view.Properties = g.NodeProperties ∧
    g.node_property_view.AddProperties t = g.AddNodeProperties t ∧
    g.node_property_view.RemoveProperty i = g.RemoveNodeProperty i ∧
    g.edge_property_view.schema = g.edge_schema ∧
    g.edge_property_view.Property i = g.EdgeProperty i ∧
    g.edge_property_view.Properties = g.EdgeProperties ∧
    g.edge_property_view.AddProperties t = g.AddEdgeProperties t ∧
    g.edge_property_view.RemoveProperty i = g.RemoveEdgeProperty i :=
  ⟨rfl, rfl, rfl, rfl, rfl, rfl, rfl, rfl, rfl, rfl⟩

/-- C10: `num_nodes()` and `num_edges()` are total on every
`GraphTopology` value: a null `out_indices` yields `num_nodes() = 0`
and a null `out_dests` yields `num_edges() = 0`, with no failure. -/
theorem c10_num_accessors_total_on_null (i d : Option (List Nat)) :
    GraphTopology.num_nodes ⟨none, d⟩ = 0 ∧ GraphTopology.num_edges ⟨i, none⟩ = 0 :=
  ⟨rfl, rfl⟩

end galois
